import Mathlib

/-!
# Verification of the ArchetypeV2 frontend data model and helpers

Shallow embedding of the TypeScript sources of the ArchetypeV2 UX-testing
dashboard (`frontend/lib/api.ts`, `frontend/lib/mockApi.ts`,
`frontend/hooks/useAgentPolling.ts`, the `Dashboard` / `SwarmProgress`
components and the formatter utilities), together with models of the agent
worker's loop and classifier, which are described by the repository's
documentation but whose implementation is not part of the source tree.

Status strings (`pending`/`running`/`completed`/`failed`) are kept as Lean
`String`s, exactly as the TypeScript code compares them.  Timestamps produced
by `new Date().toISOString()` / `Date.now()` are abstract parameters (`now`,
`nowMs`): no claim depends on their concrete value.
-/

namespace ArchetypeV2

/-- `Agent` record, from `frontend/lib/api.ts`.  `ended_at` is modelled as an
`Option String` so that "`ended_at` is set" is expressible; the mock store
always supplies a value for it. -/
structure Agent where
  agent_id : String
  run_id : String
  persona : String
  status : String
  started_at : String
  ended_at : Option String
  deriving DecidableEq, Repr

/-- `Run` record, from `frontend/lib/api.ts`. -/
structure Run where
  run_id : String
  state : String
  url : String
  ux_question : Option String
  created_at : String
  deriving DecidableEq, Repr

/-- `Interaction` record, from `frontend/lib/api.ts`. -/
structure Interaction where
  interaction_id : String
  agent_id : String
  step : Nat
  intent : Option String
  action_type : Option String
  selector : Option String
  result : String
  created_at : String
  deriving DecidableEq, Repr

/-- An agent is terminal when its status is `completed` or `failed`
(the test used by `pollAgentStatus` and by `SwarmProgress`). -/
def isTerminal (a : Agent) : Bool :=
  a.status == "completed" || a.status == "failed"

/-! ## Run status derivation (`Dashboard.loadTests`) -/

/-- The run status the dashboard derives from a run's agents, from
`Dashboard.loadTests`:
`allCompleted = agents.every(a => a.status === 'completed')`,
`anyFailed = agents.some(a => a.status === 'failed')`,
`status: anyFailed ? 'failed' : (allCompleted ? 'completed' : 'running')`. -/
def deriveTestStatus (agents : List Agent) : String :=
  let allCompleted := agents.all fun a => a.status == "completed"
  let anyFailed := agents.any fun a => a.status == "failed"
  if anyFailed then "failed" else if allCompleted then "completed" else "running"

/-- The spec's formulation of the derived run status: `failed` if any agent
failed, else `running` if any agent is not terminal, else `completed`. -/
def specRunStatus (agents : List Agent) : String :=
  if agents.any (fun a => a.status == "failed") then "failed"
  else if agents.any (fun a => !(a.status == "completed" || a.status == "failed")) then
    "running"
  else "completed"

/-! ## The mock store (`frontend/lib/mockApi.ts`)

Each `new Date().toISOString()` in the source produces the serialization of
the current instant; the embedding abstracts these as a `now : String`
parameter, and `Date.now()` as a `nowMs : Nat` parameter. -/

/-- The initial `mockRuns` array of `mockApi.ts`; `yesterday` stands for
`new Date(Date.now() - 86400000).toISOString()`. -/
def mockRuns (now yesterday : String) : List Run :=
  [{ run_id := "550e8400-e29b-41d4-a716-446655440001", state := "completed",
     url := "https://example.com",
     ux_question := some "How easy is it to find the signup button?",
     created_at := now },
   { run_id := "550e8400-e29b-41d4-a716-446655440002", state := "running",
     url := "https://myapp.com",
     ux_question := some "Can users easily navigate to the pricing page?",
     created_at := yesterday }]

/-- The initial `mockAgents` array of `mockApi.ts`.  Note that in the source
every entry, including the two with `status: 'running'`, is given
`ended_at: new Date().toISOString()`. -/
def mockAgents (now : String) : List Agent :=
  [{ agent_id := "650e8400-e29b-41d4-a716-446655440001",
     run_id := "550e8400-e29b-41d4-a716-446655440001",
     persona := "Tech Savvy User", status := "completed",
     started_at := now, ended_at := some now },
   { agent_id := "650e8400-e29b-41d4-a716-446655440002",
     run_id := "550e8400-e29b-41d4-a716-446655440001",
     persona := "First-time User", status := "completed",
     started_at := now, ended_at := some now },
   { agent_id := "650e8400-e29b-41d4-a716-446655440003",
     run_id := "550e8400-e29b-41d4-a716-446655440002",
     persona := "Mobile User", status := "running",
     started_at := now, ended_at := some now },
   { agent_id := "650e8400-e29b-41d4-a716-446655440004",
     run_id := "550e8400-e29b-41d4-a716-446655440002",
     persona := "Power User", status := "running",
     started_at := now, ended_at := some now }]

/-- The initial `mockInteractions` array of `mockApi.ts`. -/
def mockInteractions (now : String) : List Interaction :=
  [{ interaction_id := "750e8400-e29b-41d4-a716-446655440001",
     agent_id := "650e8400-e29b-41d4-a716-446655440001",
     step := 1, intent := some "Find signup button",
     action_type := some "click", selector := some "button.signup",
     result := "Successfully found and clicked signup button",
     created_at := now }]

/-- A persona in a `CreateRunRequest` (`frontend/lib/api.ts`). -/
structure PersonaReq where
  name : String
  age : String
  context : String
  deriving DecidableEq, Repr

/-- `CreateRunRequest` (`frontend/lib/api.ts`). -/
structure CreateRunRequest where
  url : String
  ux_question : String
  selector : Option String
  personas : List PersonaReq
  deriving DecidableEq, Repr

/-- `CreateRunResponse` (`frontend/lib/api.ts`). -/
structure CreateRunResponse where
  run_id : String
  message : String
  deriving DecidableEq, Repr

/-- The run id generated by `mockRunApi.create`:
`` `550e8400-e29b-41d4-a716-${Date.now()}` ``. -/
def createdRunId (nowMs : Nat) : String :=
  "550e8400-e29b-41d4-a716-" ++ toString nowMs

/-- The `newRun` built by `mockRunApi.create`. -/
def newRunOfRequest (nowMs : Nat) (now : String) (req : CreateRunRequest) : Run :=
  { run_id := createdRunId nowMs, state := "running", url := req.url,
    ux_question := some req.ux_question, created_at := now }

/-- The agents pushed by `mockRunApi.create`: one per persona of the request,
via `data.personas.forEach((persona, index) => mockAgents.push({...}))`.
Every pushed agent has `status: 'running'` and `ended_at` set to the current
time, exactly as in the source. -/
def agentsOfRequest (nowMs : Nat) (now : String) (runId : String)
    (personas : List PersonaReq) : List Agent :=
  personas.enum.map fun ip =>
    { agent_id := "650e8400-e29b-41d4-a716-" ++ toString nowMs ++ "-" ++ toString ip.1,
      run_id := runId, persona := ip.2.name, status := "running",
      started_at := now, ended_at := some now }

/-- The mutable module state of `mockApi.ts`. -/
structure MockStore where
  runs : List Run
  agents : List Agent
  interactions : List Interaction
  deriving DecidableEq, Repr

/-- `mockRunApi.create` as a state transition: pushes the new run, pushes one
agent per persona of the request, and resolves with
`{run_id: newRun.run_id, message: 'Test created successfully'}`. -/
def mockRunApiCreate (nowMs : Nat) (now : String) (store : MockStore)
    (req : CreateRunRequest) : MockStore × CreateRunResponse :=
  let newRun := newRunOfRequest nowMs now req
  ({ store with
      runs := store.runs ++ [newRun],
      agents := store.agents ++ agentsOfRequest nowMs now newRun.run_id req.personas },
   { run_id := newRun.run_id, message := "Test created successfully" })

end ArchetypeV2

namespace ArchetypeV2

/-- In a list with no failed agent, "some agent is non-terminal" is the same
test as "not every agent is completed". -/
theorem any_nonterminal_of_no_failed (agents : List Agent)
    (h : (agents.any fun a => a.status == "failed") = false) :
    (agents.any fun a => !(a.status == "completed" || a.status == "failed"))
      = !(agents.all fun a => a.status == "completed") := by
  induction agents with
  | nil => rfl
  | cons a l ih =>
    rw [List.any_cons] at h
    rcases Bool.or_eq_false_iff.mp h with ⟨h1, h2⟩
    rw [List.any_cons, List.all_cons, ih h2, h1, Bool.not_and, Bool.or_false]

/-- C1: the status derived by `Dashboard.loadTests` agrees with the spec's
formulation (`failed` if any agent failed, else `running` if any agent is not
terminal, else `completed`), and when no agent failed the derived status is
`completed` exactly when every agent's status is `completed`. -/
theorem deriveTestStatus_eq_specRunStatus (agents : List Agent) :
    deriveTestStatus agents = specRunStatus agents ∧
      ((agents.any fun a => a.status == "failed") = false →
        (deriveTestStatus agents = "completed" ↔
          (agents.all fun a => a.status == "completed") = true)) := by
  constructor
  · unfold deriveTestStatus specRunStatus
    cases hf : (agents.any fun a => a.status == "failed") with
    | true => simp only [hf, if_true]
    | false =>
      rw [any_nonterminal_of_no_failed agents hf]
      cases hc : (agents.all fun a => a.status == "completed") with
      | true => simp [hc]
      | false => simp [hc]
  · intro hf
    unfold deriveTestStatus
    cases hc : (agents.all fun a => a.status == "completed") with
    | true => simp [hf, hc]
    | false => simp [hf, hc]

/-- Witness for `deriveTestStatus_eq_specRunStatus` at a concrete two-agent
list (one completed, one running, none failed). -/
theorem deriveTestStatus_eq_specRunStatus_witness :
    deriveTestStatus
        [{ agent_id := "a1", run_id := "r1", persona := "P1", status := "completed",
           started_at := "t0", ended_at := some "t1" },
         { agent_id := "a2", run_id := "r1", persona := "P2", status := "running",
           started_at := "t0", ended_at := none }]
      = specRunStatus
        [{ agent_id := "a1", run_id := "r1", persona := "P1", status := "completed",
           started_at := "t0", ended_at := some "t1" },
         { agent_id := "a2", run_id := "r1", persona := "P2", status := "running",
           started_at := "t0", ended_at := none }] ∧
      ¬ deriveTestStatus
        [{ agent_id := "a1", run_id := "r1", persona := "P1", status := "completed",
           started_at := "t0", ended_at := some "t1" },
         { agent_id := "a2", run_id := "r1", persona := "P2", status := "running",
           started_at := "t0", ended_at := none }] = "completed" := by
  have h := deriveTestStatus_eq_specRunStatus
    [{ agent_id := "a1", run_id := "r1", persona := "P1", status := "completed",
       started_at := "t0", ended_at := some "t1" },
     { agent_id := "a2", run_id := "r1", persona := "P2", status := "running",
       started_at := "t0", ended_at := none }]
  refine ⟨h.1, fun hc => ?_⟩
  have := (h.2 (by decide)).mp hc
  exact absurd this (by decide)

end ArchetypeV2

namespace ArchetypeV2

/-- C2 counterexample: in the mock store the claimed invariant
"`ended_at` is set iff status is `completed` or `failed`" fails: the third
mock agent (id `650e8400-e29b-41d4-a716-446655440003`) has status `running`
and `ended_at` set. -/
theorem mockAgents_ended_at_iff_counterexample :
    ¬ (∀ a ∈ mockAgents "2024-01-01T00:00:00.000Z",
        (a.ended_at ≠ none ↔ (a.status = "completed" ∨ a.status = "failed"))) := by
  intro h
  have := (h ((mockAgents "2024-01-01T00:00:00.000Z").get ⟨2, by decide⟩)
    (by decide)).mp (by decide)
  exact absurd this (by decide)

/-- C2 (amended): every agent record in the mock store carries a set
`ended_at`, regardless of status — the initial `mockAgents` entries all set
it, and every agent pushed by `mockRunApi.create` is created with status
`running` and `ended_at` already set. -/
theorem mockAgents_ended_at_always_set (now : String) (nowMs : Nat)
    (runId : String) (personas : List PersonaReq) (a : Agent) :
    (a ∈ mockAgents now → a.ended_at = some now) ∧
      (a ∈ agentsOfRequest nowMs now runId personas →
        a.ended_at = some now ∧ a.status = "running") := by
  constructor
  · intro ha
    simp only [mockAgents, List.mem_cons, List.mem_singleton] at ha
    rcases ha with h | h | h | h | h
    all_goals first
      | (subst h; rfl)
      | exact absurd h (by simp)
  · intro ha
    simp only [agentsOfRequest, List.mem_map] at ha
    rcases ha with ⟨ip, _, rfl⟩
    exact ⟨rfl, rfl⟩

/-- Witness for `mockAgents_ended_at_always_set`: the third initial mock
agent has `ended_at` set, and so does the single agent created for a
one-persona request. -/
theorem mockAgents_ended_at_always_set_witness :
    ((mockAgents "T").get ⟨2, by decide⟩).ended_at = some "T" ∧
      ((agentsOfRequest 17 "T" "r" [{ name := "P", age := "30", context := "c" }]).get
          ⟨0, by decide⟩).ended_at = some "T" := by
  constructor
  · exact (mockAgents_ended_at_always_set "T" 17 "r"
      [{ name := "P", age := "30", context := "c" }]
      ((mockAgents "T").get ⟨2, by decide⟩)).1 (by decide)
  · exact ((mockAgents_ended_at_always_set "T" 17 "r"
      [{ name := "P", age := "30", context := "c" }]
      ((agentsOfRequest 17 "T" "r" [{ name := "P", age := "30", context := "c" }]).get
        ⟨0, by decide⟩)).2 (by decide)).1

end ArchetypeV2

namespace ArchetypeV2

/-! ## `getById` lookups (`frontend/lib/mockApi.ts`) -/

/-- The `find`-then-reject pattern that `mockApi.ts` repeats verbatim in all
three `getById` implementations: look the id up with `Array.prototype.find`,
resolve with the record if present, otherwise reject with the given error
message.  The source reads the store and never mutates it; the embedding is a
pure function of the store. -/
def findOrReject {α : Type} (key : α → String) (err : String)
    (l : List α) (id : String) : Except String α :=
  match l.find? (fun y => key y == id) with
  | some y => .ok y
  | none => .error err

/-- `mockRunApi.getById`: `mockRuns.find(r => r.run_id === runId)`, resolving
with the run or rejecting with `Error('Run not found')`. -/
def mockRunApiGetById (runs : List Run) (runId : String) : Except String Run :=
  findOrReject (fun r => r.run_id) "Run not found" runs runId

/-- `mockAgentApi.getById`: `mockAgents.find(a => a.agent_id === agentId)`,
resolving with the agent or rejecting with `Error('Agent not found')`. -/
def mockAgentApiGetById (agents : List Agent) (agentId : String) : Except String Agent :=
  findOrReject (fun a => a.agent_id) "Agent not found" agents agentId

/-- `mockInteractionApi.getById`:
`mockInteractions.find(i => i.interaction_id === interactionId)`, resolving
with the interaction or rejecting with `Error('Interaction not found')`. -/
def mockInteractionApiGetById (interactions : List Interaction)
    (interactionId : String) : Except String Interaction :=
  findOrReject (fun i => i.interaction_id) "Interaction not found" interactions
    interactionId

/-- Behaviour of a `find`-then-reject lookup over an arbitrary store list:
a successful result has the requested key, success happens exactly when some
record has the key, and rejection happens exactly when none does. -/
theorem findOrReject_spec {α : Type} (key : α → String) (err : String)
    (l : List α) (id : String) :
    (∀ x : α, findOrReject key err l id = Except.ok x → key x = id) ∧
      ((∃ x, findOrReject key err l id = Except.ok x) ↔ ∃ x ∈ l, key x = id) ∧
      (findOrReject key err l id = Except.error err ↔ ∀ x ∈ l, key x ≠ id) := by
  unfold findOrReject
  refine ⟨?_, ⟨?_, ?_⟩, ?_⟩
  · intro x hx
    cases hf : l.find? (fun y => key y == id) with
    | none => rw [hf] at hx; exact absurd hx (by simp)
    | some y =>
      rw [hf] at hx
      have hy : y = x := by simpa using hx
      subst hy
      simpa using List.find?_some hf
  · rintro ⟨x, hx⟩
    cases hf : l.find? (fun y => key y == id) with
    | none => rw [hf] at hx; exact absurd hx (by simp)
    | some y =>
      exact ⟨y, List.mem_of_find?_eq_some hf, by simpa using List.find?_some hf⟩
  · rintro ⟨x, hx, hkey⟩
    have hs : (l.find? (fun y => key y == id)).isSome :=
      List.find?_isSome.mpr ⟨x, hx, by simpa using hkey⟩
    cases hf : l.find? (fun y => key y == id) with
    | none => rw [hf] at hs; exact absurd hs (by simp)
    | some y => exact ⟨y, rfl⟩
  · cases hf : l.find? (fun y => key y == id) with
    | none =>
      constructor
      · intro _ x hx
        have := List.find?_eq_none.mp hf x hx
        simpa using this
      · intro _
        rfl
    | some y =>
      constructor
      · intro h
        exact absurd h (by simp)
      · intro h
        exact absurd (by simpa using List.find?_some hf)
          (h y (List.mem_of_find?_eq_some hf))

/-- C9: each of `mockRunApi.getById`, `mockAgentApi.getById` and
`mockInteractionApi.getById` resolves with a record whose id equals the
requested id exactly when such a record exists in its store list, and rejects
with its `not found` error exactly when no record with that id exists; the
functions are pure reads of the store. -/
theorem mockGetById_spec (runs : List Run) (agents : List Agent)
    (interactions : List Interaction) (id : String) :
    ((∀ r : Run, mockRunApiGetById runs id = .ok r → r.run_id = id) ∧
      ((∃ r, mockRunApiGetById runs id = .ok r) ↔ ∃ r ∈ runs, r.run_id = id) ∧
      (mockRunApiGetById runs id = .error "Run not found" ↔
        ∀ r ∈ runs, r.run_id ≠ id)) ∧
    ((∀ a : Agent, mockAgentApiGetById agents id = .ok a → a.agent_id = id) ∧
      ((∃ a, mockAgentApiGetById agents id = .ok a) ↔ ∃ a ∈ agents, a.agent_id = id) ∧
      (mockAgentApiGetById agents id = .error "Agent not found" ↔
        ∀ a ∈ agents, a.agent_id ≠ id)) ∧
    ((∀ i : Interaction,
        mockInteractionApiGetById interactions id = .ok i → i.interaction_id = id) ∧
      ((∃ i, mockInteractionApiGetById interactions id = .ok i) ↔
        ∃ i ∈ interactions, i.interaction_id = id) ∧
      (mockInteractionApiGetById interactions id = .error "Interaction not found" ↔
        ∀ i ∈ interactions, i.interaction_id ≠ id)) := by
  unfold mockRunApiGetById mockAgentApiGetById mockInteractionApiGetById
  exact ⟨findOrReject_spec (fun r => r.run_id) "Run not found" runs id,
    findOrReject_spec (fun a => a.agent_id) "Agent not found" agents id,
    findOrReject_spec (fun i => i.interaction_id) "Interaction not found" interactions id⟩

/-- Witness for `mockGetById_spec` on the initial mock store: looking up the
first mock run id succeeds and looking up a missing agent id rejects. -/
theorem mockGetById_spec_witness :
    (∃ r, mockRunApiGetById (mockRuns "T" "Y") "550e8400-e29b-41d4-a716-446655440001"
        = .ok r) ∧
      mockAgentApiGetById (mockAgents "T") "no-such-agent" = .error "Agent not found" := by
  constructor
  · exact (mockGetById_spec (mockRuns "T" "Y") (mockAgents "T") (mockInteractions "T")
      "550e8400-e29b-41d4-a716-446655440001").1.2.1.mpr (by decide)
  · exact (mockGetById_spec (mockRuns "T" "Y") (mockAgents "T") (mockInteractions "T")
      "no-such-agent").2.1.2.2.mpr (by decide)

end ArchetypeV2

namespace ArchetypeV2

/-! ## `mockRunApi.create` (C5) -/

/-- In a list of personas with pairwise-distinct names, the number of entries
carrying a given member's name is exactly one. -/
theorem countP_name_eq_one (l : List PersonaReq)
    (hnd : l.Pairwise fun p q => p.name ≠ q.name) (p : PersonaReq) (hp : p ∈ l) :
    l.countP (fun q => q.name == p.name) = 1 := by
  induction l with
  | nil => cases hp
  | cons a l ih =>
    rcases List.pairwise_cons.mp hnd with ⟨ha, hl⟩
    rcases List.mem_cons.mp hp with h | h
    · have hz : l.countP (fun q => q.name == a.name) = 0 := by
        rw [List.countP_eq_zero]
        intro b hb
        simpa using (ha b hb).symm
      rw [h, List.countP_cons, hz]
      simp
    · have hne : (a.name == p.name) = false := by
        simpa using ha p h
      rw [List.countP_cons, ih hl h, hne]
      simp

/-- C5: `mockRunApi.create` resolves with `{run_id, message}` where `run_id`
is the id of the newly stored run; the agents it pushes are exactly one per
persona of the request, each carrying the new run id; and if the generated
run id is fresh (no pre-existing agent carries it) and the request's persona
names are pairwise distinct, then afterwards exactly one agent row exists per
`(run_id, persona)` pair for the new run. -/
theorem mockRunApiCreate_spec (store : MockStore) (req : CreateRunRequest)
    (nowMs : Nat) (now : String) :
    (mockRunApiCreate nowMs now store req).2
        = { run_id := (newRunOfRequest nowMs now req).run_id,
            message := "Test created successfully" } ∧
      (mockRunApiCreate nowMs now store req).1.runs
        = store.runs ++ [newRunOfRequest nowMs now req] ∧
      (∃ r ∈ (mockRunApiCreate nowMs now store req).1.runs,
        r.run_id = (mockRunApiCreate nowMs now store req).2.run_id) ∧
      (mockRunApiCreate nowMs now store req).1.agents
        = store.agents ++ agentsOfRequest nowMs now (createdRunId nowMs) req.personas ∧
      (agentsOfRequest nowMs now (createdRunId nowMs) req.personas).length
        = req.personas.length ∧
      (∀ a ∈ agentsOfRequest nowMs now (createdRunId nowMs) req.personas,
        a.run_id = (mockRunApiCreate nowMs now store req).2.run_id ∧
          a.persona ∈ req.personas.map PersonaReq.name) ∧
      ((∀ a ∈ store.agents, a.run_id ≠ createdRunId nowMs) →
        (req.personas.Pairwise fun p q => p.name ≠ q.name) →
        ∀ p ∈ req.personas,
          (mockRunApiCreate nowMs now store req).1.agents.countP
              (fun a => a.run_id == createdRunId nowMs && a.persona == p.name)
            = 1) := by
  refine ⟨rfl, rfl, ?_, rfl, by simp [agentsOfRequest], ?_, ?_⟩
  · exact ⟨newRunOfRequest nowMs now req, by simp [mockRunApiCreate], rfl⟩
  · intro a ha
    simp only [agentsOfRequest, List.mem_map] at ha
    rcases ha with ⟨ip, hip, rfl⟩
    refine ⟨rfl, ?_⟩
    simp only [List.mem_map]
    exact ⟨ip.2, by
      have := List.enum_map_snd req.personas
      exact this ▸ List.mem_map_of_mem Prod.snd hip, rfl⟩
  · intro hfresh hnd p hp
    have hsplit :
        (mockRunApiCreate nowMs now store req).1.agents
          = store.agents ++ agentsOfRequest nowMs now (createdRunId nowMs) req.personas :=
      rfl
    rw [hsplit, List.countP_append]
    have h0 : store.agents.countP
        (fun a => a.run_id == createdRunId nowMs && a.persona == p.name) = 0 := by
      rw [List.countP_eq_zero]
      intro a ha
      have := hfresh a ha
      simp [this]
    have h1 : (agentsOfRequest nowMs now (createdRunId nowMs) req.personas).countP
        (fun a => a.run_id == createdRunId nowMs && a.persona == p.name) = 1 := by
      unfold agentsOfRequest
      rw [List.countP_map]
      have hc : ∀ ip : Nat × PersonaReq,
          ((fun a : Agent => a.run_id == createdRunId nowMs && a.persona == p.name) ∘
            (fun ip : Nat × PersonaReq =>
              ({ agent_id := "650e8400-e29b-41d4-a716-" ++ toString nowMs ++ "-"
                    ++ toString ip.1,
                 run_id := createdRunId nowMs, persona := ip.2.name,
                 status := "running", started_at := now,
                 ended_at := some now } : Agent))) ip
            = (ip.2.name == p.name) := by
        intro ip
        simp
      rw [List.countP_congr fun ip _ => by rw [hc ip]]
      have henum : req.personas.enum.countP (fun ip => ip.2.name == p.name)
          = req.personas.countP (fun q => q.name == p.name) := by
        have hmap := List.countP_map (fun q : PersonaReq => q.name == p.name) Prod.snd
          req.personas.enum
        rw [List.enum_map_snd] at hmap
        exact hmap.symm
      rw [henum]
      exact countP_name_eq_one req.personas hnd p hp
    rw [h0, h1]

/-- Witness for `mockRunApiCreate_spec` on the initial mock store with a
two-persona request whose names are distinct and a fresh timestamp id. -/
theorem mockRunApiCreate_spec_witness :
    ((mockRunApiCreate 1234 "T"
        { runs := mockRuns "T" "Y", agents := mockAgents "T",
          interactions := mockInteractions "T" }
        { url := "https://x.com", ux_question := "q", selector := none,
          personas := [{ name := "A", age := "20", context := "ca" },
                       { name := "B", age := "30", context := "cb" }] }).1.agents.countP
      (fun a => a.run_id == createdRunId 1234 && a.persona == "A")) = 1 := by
  have h := (mockRunApiCreate_spec
    { runs := mockRuns "T" "Y", agents := mockAgents "T",
      interactions := mockInteractions "T" }
    { url := "https://x.com", ux_question := "q", selector := none,
      personas := [{ name := "A", age := "20", context := "ca" },
                   { name := "B", age := "30", context := "cb" }] }
    1234 "T").2.2.2.2.2.2 (by decide) (by decide)
    { name := "A", age := "20", context := "ca" } (by decide)
  exact h

end ArchetypeV2

namespace ArchetypeV2

/-! ## Interaction steps and the transcript sort (C3) -/

/-- `mockInteractionApi.getByAgentId`:
`mockInteractions.filter(i => i.agent_id === agentId)`. -/
def mockInteractionApiGetByAgentId (interactions : List Interaction)
    (agentId : String) : List Interaction :=
  interactions.filter fun i => i.agent_id == agentId

/-- The step values stored for one agent, in store order. -/
def agentSteps (interactions : List Interaction) (agentId : String) : List Nat :=
  (mockInteractionApiGetByAgentId interactions agentId).map Interaction.step

/-- The comparator of `useInteractions.loadInteractions`:
`if (a.step !== b.step) return a.step - b.step;`
`return new Date(a.created_at).getTime() - new Date(b.created_at).getTime()`,
read as "`a` may precede `b`" (comparator value `≤ 0`).  `dateTime` abstracts
`new Date(s).getTime()`. -/
def interactionLE (dateTime : String → Int) (a b : Interaction) : Bool :=
  if a.step ≠ b.step then decide (a.step < b.step)
  else decide (dateTime a.created_at ≤ dateTime b.created_at)

/-- `allInteractions.sort(comparator)`, modelled as a stable merge sort with
the comparator's "may precede" relation. -/
def sortInteractions (dateTime : String → Int) (l : List Interaction) :
    List Interaction :=
  l.mergeSort (interactionLE dateTime)

theorem interactionLE_eq_true (dateTime : String → Int) (a b : Interaction) :
    interactionLE dateTime a b = true ↔
      a.step < b.step ∨
        (a.step = b.step ∧ dateTime a.created_at ≤ dateTime b.created_at) := by
  unfold interactionLE
  by_cases h : a.step = b.step
  · simp [h]
  · simp [h]

theorem interactionLE_trans (dateTime : String → Int) (a b c : Interaction)
    (h1 : interactionLE dateTime a b)
    (h2 : interactionLE dateTime b c) : interactionLE dateTime a c := by
  rw [interactionLE_eq_true] at h1 h2 ⊢
  rcases h1 with h1 | ⟨h1e, h1d⟩
  · rcases h2 with h2 | ⟨h2e, _⟩
    · exact Or.inl (Nat.lt_trans h1 h2)
    · exact Or.inl (h2e ▸ h1)
  · rcases h2 with h2 | ⟨h2e, h2d⟩
    · exact Or.inl (h1e ▸ h2)
    · exact Or.inr ⟨h1e.trans h2e, le_trans h1d h2d⟩

theorem interactionLE_total (dateTime : String → Int) (a b : Interaction) :
    interactionLE dateTime a b || interactionLE dateTime b a := by
  rcases Nat.lt_trichotomy a.step b.step with h | h | h
  · have : interactionLE dateTime a b = true :=
      (interactionLE_eq_true dateTime a b).mpr (Or.inl h)
    simp [this]
  · rcases le_total (dateTime a.created_at) (dateTime b.created_at) with hd | hd
    · have : interactionLE dateTime a b = true :=
        (interactionLE_eq_true dateTime a b).mpr (Or.inr ⟨h, hd⟩)
      simp [this]
    · have : interactionLE dateTime b a = true :=
        (interactionLE_eq_true dateTime b a).mpr (Or.inr ⟨h.symm, hd⟩)
      simp [this]
  · have : interactionLE dateTime b a = true :=
      (interactionLE_eq_true dateTime b a).mpr (Or.inl h)
    simp [this]

/-- C3: for every agent id, the step values stored for that agent in the mock
interaction store are exactly the contiguous sequence `1..N` for that agent's
final step count `N` (the store is static: `mockInteractionApi` exposes no
write operation); and for every interaction list, the frontend sort presents
the same interactions (a permutation) in non-decreasing `step` order. -/
theorem mockInteractions_steps_contiguous_and_sorted (now : String)
    (agentId : String) (dateTime : String → Int) (l : List Interaction) :
    agentSteps (mockInteractions now) agentId
        = List.range' 1 (agentSteps (mockInteractions now) agentId).length ∧
      (sortInteractions dateTime l).Pairwise (fun a b => a.step ≤ b.step) ∧
      (sortInteractions dateTime l).Perm l := by
  refine ⟨?_, ?_, ?_⟩
  · unfold agentSteps mockInteractionApiGetByAgentId mockInteractions
    cases hp : ("650e8400-e29b-41d4-a716-446655440001" == agentId) with
    | true => simp [List.filter, hp, List.range']
    | false => simp [List.filter, hp]
  · have hs := List.sorted_mergeSort
      (interactionLE_trans dateTime) (interactionLE_total dateTime) l
    refine List.Pairwise.imp ?_ hs
    intro a b hab
    rcases (interactionLE_eq_true dateTime a b).mp hab with h | ⟨h, _⟩
    · exact Nat.le_of_lt h
    · exact Nat.le_of_eq h
  · exact List.mergeSort_perm l (interactionLE dateTime)

end ArchetypeV2

namespace ArchetypeV2

/-! ## Per-agent and overall progress (C8) -/

/-- `getAgentProgress` from `useAgentPolling.ts`: a switch on the status
string with a `default: return 0` branch. -/
def getAgentProgress (status : String) : Nat :=
  if status = "pending" then 0
  else if status = "running" then 50
  else if status = "completed" then 100
  else if status = "failed" then 100
  else 0

/-- `getAgentProgress` from the `SwarmProgress` component: the same switch,
written there a second time. -/
def swarmGetAgentProgress (status : String) : Nat :=
  if status = "pending" then 0
  else if status = "running" then 50
  else if status = "completed" then 100
  else if status = "failed" then 100
  else 0

/-- `calculateProgress` from the formatter utilities:
`if (total === 0) return 0;`
`const progress = ((completed + (running * 0.5)) / total) * 100;`
`return Math.min(progress, 100)`.  The arithmetic is modelled over `ℚ`
(`running * 0.5` is exact in the source's doubles; no claim depends on
rounding of the division). -/
def calculateProgress (completed running total : Nat) : ℚ :=
  if total = 0 then 0
  else min ((((completed : ℚ) + running * (1 / 2)) / total) * 100) 100

/-- The inline overall-progress computation of `SwarmProgress.pollAgentStatus`:
`totalAgents > 0 ? ((completedAgents + (runningAgents * 0.5)) / totalAgents) * 100 : 0`
followed by `setOverallProgress(Math.min(progress, 100))`. -/
def swarmOverallProgress (completed running total : Nat) : ℚ :=
  let progress : ℚ :=
    if 0 < total then (((completed : ℚ) + running * (1 / 2)) / total) * 100 else 0
  min progress 100

/-- C8: the two per-agent progress functions agree on every status string and
realize the table pending ↦ 0, running ↦ 50, completed ↦ 100, failed ↦ 100;
`SwarmProgress`'s inline overall-progress formula equals the formatters'
`calculateProgress` on all natural inputs; and the overall progress always
lies in `[0, 100]` and is `0` when `total = 0`. -/
theorem progress_functions_agree (status : String) (completed running total : Nat) :
    getAgentProgress status = swarmGetAgentProgress status ∧
      (getAgentProgress "pending" = 0 ∧ getAgentProgress "running" = 50 ∧
        getAgentProgress "completed" = 100 ∧ getAgentProgress "failed" = 100) ∧
      swarmOverallProgress completed running total = calculateProgress completed running total ∧
      0 ≤ calculateProgress completed running total ∧
      calculateProgress completed running total ≤ 100 ∧
      calculateProgress completed running 0 = 0 := by
  refine ⟨rfl, ⟨by decide, by decide, by decide, by decide⟩, ?_, ?_, ?_, by simp [calculateProgress]⟩
  · unfold swarmOverallProgress calculateProgress
    rcases Nat.eq_zero_or_pos total with h | h
    · simp [h]
    · rw [if_pos h, if_neg (Nat.pos_iff_ne_zero.mp h)]
  · unfold calculateProgress
    rcases Nat.eq_zero_or_pos total with h | h
    · simp [h]
    · rw [if_neg (Nat.pos_iff_ne_zero.mp h)]
      apply le_min _ (by norm_num)
      apply mul_nonneg _ (by norm_num)
      apply div_nonneg _ (by positivity)
      positivity
  · unfold calculateProgress
    rcases Nat.eq_zero_or_pos total with h | h
    · simp [h]
    · rw [if_neg (Nat.pos_iff_ne_zero.mp h)]
      exact min_le_right _ _

end ArchetypeV2

namespace ArchetypeV2

/-! ## Agent-status polling (C4)

`useAgentPolling` is React state plus a `setTimeout` loop.  The hook state is
modelled explicitly.  Crucially, the `poll` closure built inside
`startPolling` does not read the live hook state: its `isPolling` is the
value captured from the render in which the closure was created, and
`setIsPolling(true)` only affects later renders, never an already-created
closure.  `POLLING_INTERVALS.AGENT_STATUS = 2000` is from `lib/constants`. -/

def POLLING_INTERVALS_AGENT_STATUS : Nat := 2000

/-- The hook state touched by `pollAgentStatus` / `startPolling`. -/
structure PollState where
  agents : List (Agent × Nat)
  overallProgress : ℚ
  isPolling : Bool
  error : Option String
  deriving Repr

/-- The hook's initial state (the `useState` initializers of
`useAgentPolling`): empty agents, zero progress, not polling, no error. -/
def initialPollState : PollState :=
  { agents := [], overallProgress := 0, isPolling := false, error := none }

/-- The state writes `startPolling` performs before its first poll:
`setIsPolling(true); setError(null)`.  They update the hook state seen by
later renders; they do not change what an already-created closure captured. -/
def startPollingState (s : PollState) : PollState :=
  { s with isPolling := true, error := none }

/-- `pollAgentStatus` from `useAgentPolling.ts`, as a function of the fetch
outcome: on success it stores the agents with their per-agent progress,
recomputes the overall progress, and if every agent is `completed` or
`failed` clears `isPolling` and returns `true`; on fetch error it records the
error message, clears `isPolling` and returns `false`. -/
def pollAgentStatus (fetch : Except String (List Agent)) (s : PollState) :
    PollState × Bool :=
  match fetch with
  | .error _ =>
      ({ s with error := some "Failed to get agent status", isPolling := false }, false)
  | .ok agentData =>
      let agentsWithProgress := agentData.map fun a => (a, getAgentProgress a.status)
      let completedCount :=
        (agentsWithProgress.filter fun ap => ap.1.status == "completed").length
      let runningCount :=
        (agentsWithProgress.filter fun ap => ap.1.status == "running").length
      let totalCount := agentsWithProgress.length
      let s := { s with
        agents := agentsWithProgress,
        overallProgress := calculateProgress completedCount runningCount totalCount }
      let allDone := agentsWithProgress.all fun ap =>
        ap.1.status == "completed" || ap.1.status == "failed"
      if allDone then ({ s with isPolling := false }, true) else (s, false)

/-- One invocation of `poll` inside `startPolling`: run `pollAgentStatus`,
then `if (!isComplete && isPolling) setTimeout(poll, POLLING_INTERVALS.AGENT_STATUS)`.
The `isPolling` of that check is the closure's render-captured value
(`capturedIsPolling`), not the state updated by `setIsPolling`; at the
canonical `startPolling` invocation the capture is the pre-`startPolling`
value `initialPollState.isPolling = false`.  The second component is the
delay of the scheduled next poll, if one was scheduled. -/
def pollOnce (capturedIsPolling : Bool) (fetch : Except String (List Agent))
    (s : PollState) : PollState × Option Nat :=
  let (s', isComplete) := pollAgentStatus fetch s
  if !isComplete && capturedIsPolling then (s', some POLLING_INTERVALS_AGENT_STATUS)
  else (s', none)

/-- `pollAgentStatus` reports completion exactly when every fetched agent has
status `completed` or `failed`, whatever the current hook state. -/
theorem pollAgentStatus_completes_iff (agents : List Agent) (s : PollState) :
    (pollAgentStatus (.ok agents) s).2 = true ↔ agents.all isTerminal = true := by
  have hall : (agents.map fun a => (a, getAgentProgress a.status)).all
      (fun ap => ap.1.status == "completed" || ap.1.status == "failed")
        = agents.all isTerminal := by
    induction agents with
    | nil => rfl
    | cons a l ih =>
      rw [List.map_cons, List.all_cons, List.all_cons, ih]
      rfl
  cases hd : agents.all isTerminal with
  | true => simp [pollAgentStatus, hall, hd]
  | false => simp [pollAgentStatus, hall, hd]

/-- C4 (code bug): at the canonical `startPolling` invocation — the hook
rendered in its initial state, then `startPolling` called — the scheduling
check `!isComplete && isPolling` reads the stale closure capture
`initialPollState.isPolling = false`, so the poll never schedules a
follow-up: not for any successfully fetched agent list, and not on a fetch
error either.  In particular, fetching the single still-running mock agent
`650e8400-e29b-41d4-a716-446655440003` neither reports completion nor
schedules a next round: polling silently stops after one round, against the
claimed (and spec-intended) repeated polling. -/
theorem pollOnce_stale_closure_never_reschedules (agents : List Agent) (e : String) :
    (pollOnce initialPollState.isPolling (.ok agents)
        (startPollingState initialPollState)).2 = none ∧
      (pollOnce initialPollState.isPolling (.error e)
        (startPollingState initialPollState)).2 = none ∧
      (pollAgentStatus
          (.ok [{ agent_id := "650e8400-e29b-41d4-a716-446655440003",
                  run_id := "550e8400-e29b-41d4-a716-446655440002",
                  persona := "Mobile User", status := "running",
                  started_at := "t", ended_at := some "t" }])
          (startPollingState initialPollState)).2 = false ∧
      (pollOnce initialPollState.isPolling
          (.ok [{ agent_id := "650e8400-e29b-41d4-a716-446655440003",
                  run_id := "550e8400-e29b-41d4-a716-446655440002",
                  persona := "Mobile User", status := "running",
                  started_at := "t", ended_at := some "t" }])
          (startPollingState initialPollState)).2 = none := by
  have hsched : ∀ f : Except String (List Agent),
      (pollOnce initialPollState.isPolling f (startPollingState initialPollState)).2
        = none := by
    intro f
    rcases h : pollAgentStatus f (startPollingState initialPollState) with ⟨s', b⟩
    simp [pollOnce, h, initialPollState]
  refine ⟨hsched _, hsched _, ?_, hsched _⟩
  have h3 := pollAgentStatus_completes_iff
    [{ agent_id := "650e8400-e29b-41d4-a716-446655440003",
       run_id := "550e8400-e29b-41d4-a716-446655440002",
       persona := "Mobile User", status := "running",
       started_at := "t", ended_at := some "t" }] (startPollingState initialPollState)
  cases hb : (pollAgentStatus
      (.ok [{ agent_id := "650e8400-e29b-41d4-a716-446655440003",
              run_id := "550e8400-e29b-41d4-a716-446655440002",
              persona := "Mobile User", status := "running",
              started_at := "t", ended_at := some "t" }])
      (startPollingState initialPollState)).2 with
  | true => exact absurd (h3.mp hb) (by decide)
  | false => rfl

end ArchetypeV2

namespace ArchetypeV2

/-! ## Sentiment & bug classifier (C6)

The agent worker's classifier implementation is not part of this source tree
(only the `agent_worker` README and the sentiment/bug feature notes are);
the definitions below are modelled from the spec. -/

/-- Sentiment levels of the classifier contract. -/
inductive Sentiment where
  | very_positive
  | positive
  | neutral
  | negative
  | frustrated
  deriving DecidableEq, Repr

/-- Frustration ordering on sentiments: `very_positive` least frustrated,
`frustrated` most. -/
def Sentiment.frustrationLevel : Sentiment → Nat
  | .very_positive => 0
  | .positive => 1
  | .neutral => 2
  | .negative => 3
  | .frustrated => 4

/-- One step's outcome as seen by the classifier: whether the executed action
succeeded and whether a bug was tagged on the step. -/
structure StepOutcome where
  success : Bool
  bug_detected : Bool
  deriving DecidableEq, Repr

/-- Two adjacent `true` entries somewhere in a list of bug flags, i.e. two
consecutive bug-tagged steps (necessarily within a 3-step window). -/
def twoConsecBugs : List Bool → Bool
  | [] => false
  | [_] => false
  | a :: b :: rest => (a && b) || twoConsecBugs (b :: rest)

/-- Three adjacent `true` entries, i.e. a 3-step window containing three
bug-tagged steps. -/
def threeConsecBugs : List Bool → Bool
  | a :: b :: c :: rest => (a && b && c) || threeConsecBugs (b :: c :: rest)
  | _ => false

/-- Modelled from the spec: the Sentiment & Bug Classifier (spec §4.4), whose
implementation is absent from this excerpt.  Input is the short interaction
history handed to the classifier; the frustration accumulator grows on
repeated bugs within a short window, and the spec's thresholds are realized
as: three bug-tagged steps in a 3-step window ⇒ `frustrated`, two consecutive
bug-tagged steps ⇒ `negative`, any isolated bug ⇒ `neutral`, otherwise
`positive` on an all-success non-empty history and `neutral` on an empty
one. -/
def classifySentiment (history : List StepOutcome) : Sentiment :=
  let bugs := history.map StepOutcome.bug_detected
  if threeConsecBugs bugs then .frustrated
  else if twoConsecBugs bugs then .negative
  else if bugs.any id then .neutral
  else if !history.isEmpty && history.all StepOutcome.success then .positive
  else .neutral

/-- C6: whenever two consecutive bug-tagged steps occur (hence occur within a
3-step window) the classifier's sentiment is at least `negative` in
frustration order, and whenever a 3-step window holds three (or more)
bug-tagged steps the sentiment is `frustrated`. -/
theorem classifySentiment_bug_thresholds (history : List StepOutcome) :
    (twoConsecBugs (history.map StepOutcome.bug_detected) = true →
        Sentiment.frustrationLevel Sentiment.negative ≤
          Sentiment.frustrationLevel (classifySentiment history)) ∧
      (threeConsecBugs (history.map StepOutcome.bug_detected) = true →
        classifySentiment history = Sentiment.frustrated) := by
  constructor
  · intro h2
    cases h3 : threeConsecBugs (history.map StepOutcome.bug_detected) with
    | true =>
      have hcl : classifySentiment history = Sentiment.frustrated := by
        unfold classifySentiment
        simp [h3]
      rw [hcl]
      decide
    | false =>
      have hcl : classifySentiment history = Sentiment.negative := by
        unfold classifySentiment
        simp [h3, h2]
      rw [hcl]
  · intro h3
    unfold classifySentiment
    simp [h3]

/-- Witness for `classifySentiment_bug_thresholds` on a concrete history of
three consecutive bug-tagged failing steps. -/
theorem classifySentiment_bug_thresholds_witness :
    Sentiment.frustrationLevel Sentiment.negative ≤
        Sentiment.frustrationLevel (classifySentiment
          [⟨false, true⟩, ⟨false, true⟩, ⟨false, true⟩]) ∧
      classifySentiment [⟨false, true⟩, ⟨false, true⟩, ⟨false, true⟩]
        = Sentiment.frustrated := by
  constructor
  · exact (classifySentiment_bug_thresholds
      [⟨false, true⟩, ⟨false, true⟩, ⟨false, true⟩]).1 (by decide)
  · exact (classifySentiment_bug_thresholds
      [⟨false, true⟩, ⟨false, true⟩, ⟨false, true⟩]).2 (by decide)

/-! ## Agent loop step budget (C7)

The orchestrator's plan→act→observe loop (spec §4.5) is also absent from
this excerpt; the model below is from the spec.  The planner, executor and
classifier are abstracted into a single oracle that, given the step number
and transcript so far, either yields the next transcript record (a planned,
executed and classified step) or a terminal decision. -/

/-- Finish reasons of the loop contract (spec §6). -/
inductive FinishReason where
  | goal_achieved
  | step_budget_reached
  | planning_failure
  | dropped_off
  deriving DecidableEq, Repr

/-- What one loop iteration produces, as decided by the abstracted
planner/executor/classifier oracle. -/
inductive LoopDecision (α : Type) where
  | record (rec : α)
  | finish (reason : FinishReason)

/-- Modelled from the spec: the agent loop (spec §4.5), decrementing the
remaining step budget on every appended step and terminating with
`step_budget_reached` when the budget is exhausted, regardless of the
oracle's behaviour. -/
def agentLoop {α : Type} (oracle : Nat → List α → LoopDecision α) :
    Nat → Nat → List α → List α × FinishReason
  | 0, _, transcript => (transcript, .step_budget_reached)
  | budget + 1, stepNo, transcript =>
      match oracle stepNo transcript with
      | .finish reason => (transcript, reason)
      | .record rec => agentLoop oracle budget (stepNo + 1) (transcript ++ [rec])

/-- A full agent run: start at step 1 with an empty transcript and the
configured maximum step count as budget. -/
def runAgent {α : Type} (maxSteps : Nat) (oracle : Nat → List α → LoopDecision α) :
    List α × FinishReason :=
  agentLoop oracle maxSteps 1 []

theorem agentLoop_length_le {α : Type} (oracle : Nat → List α → LoopDecision α) :
    ∀ (budget stepNo : Nat) (transcript : List α),
      (agentLoop oracle budget stepNo transcript).1.length
        ≤ transcript.length + budget := by
  intro budget
  induction budget with
  | zero => intro stepNo transcript; simp [agentLoop]
  | succ b ih =>
    intro stepNo transcript
    unfold agentLoop
    cases oracle stepNo transcript with
    | finish reason => simp
    | record rec =>
      calc (agentLoop oracle b (stepNo + 1) (transcript ++ [rec])).1.length
          ≤ (transcript ++ [rec]).length + b := ih (stepNo + 1) (transcript ++ [rec])
        _ = transcript.length + (b + 1) := by
            rw [List.length_append, List.length_singleton]
            omega

/-- C7: the agent loop is a total function (it terminates by construction,
by recursion on the remaining budget), and for every configured maximum step
count and every oracle behaviour its transcript holds at most `maxSteps`
steps. -/
theorem runAgent_respects_step_budget {α : Type} (maxSteps : Nat)
    (oracle : Nat → List α → LoopDecision α) :
    (runAgent maxSteps oracle).1.length ≤ maxSteps := by
  have h := agentLoop_length_le oracle maxSteps 1 []
  simpa [runAgent] using h

end ArchetypeV2

namespace ArchetypeV2

/-! ## `groupBy` (C10)

`groupBy` from the formatter utilities reduces the array into a plain JS
object (string-keyed, insertion-ordered); the accumulator is modelled as an
insertion-ordered association list. -/

/-- One reduce step of `groupBy` on the accumulating object:
`if (!groups[key]) groups[key] = []; groups[key].push(item)` — append the
item to the entry with this key, or append a fresh entry at the end. -/
def pushEntry {K T : Type} [DecidableEq K] (k : K) (x : T) :
    List (K × List T) → List (K × List T)
  | [] => [(k, [x])]
  | (k', g) :: rest =>
      if k' = k then (k', g ++ [x]) :: rest else (k', g) :: pushEntry k x rest

/-- `groupBy(array, keyFn)`:
`array.reduce((groups, item) => { const key = keyFn(item); ...push... }, {})`. -/
def groupBy {K T : Type} [DecidableEq K] (array : List T) (keyFn : T → K) :
    List (K × List T) :=
  array.foldl (fun groups item => pushEntry (keyFn item) item groups) []

/-- `groups[k]`, with `[]` for an absent key. -/
def lookupGroup {K T : Type} [DecidableEq K] (groups : List (K × List T)) (k : K) :
    List T :=
  match groups.find? (fun e => decide (e.1 = k)) with
  | some e => e.2
  | none => []

theorem lookupGroup_pushEntry_same {K T : Type} [DecidableEq K] (k : K) (x : T)
    (gs : List (K × List T)) :
    lookupGroup (pushEntry k x gs) k = lookupGroup gs k ++ [x] := by
  induction gs with
  | nil => simp [pushEntry, lookupGroup, List.find?]
  | cons e rest ih =>
    obtain ⟨k', g⟩ := e
    by_cases h : k' = k
    · simp [pushEntry, lookupGroup, List.find?, h]
    · simp only [pushEntry, if_neg h]
      simp only [lookupGroup, List.find?] at ih ⊢
      rw [show (decide (k' = k)) = false by simp [h]]
      exact ih

theorem lookupGroup_pushEntry_other {K T : Type} [DecidableEq K] (k k' : K) (x : T)
    (gs : List (K × List T)) (hne : k' ≠ k) :
    lookupGroup (pushEntry k x gs) k' = lookupGroup gs k' := by
  induction gs with
  | nil => simp [pushEntry, lookupGroup, List.find?, Ne.symm hne]
  | cons e rest ih =>
    obtain ⟨k0, g⟩ := e
    by_cases h : k0 = k
    · subst h
      simp [pushEntry, lookupGroup, List.find?, Ne.symm hne]
    · simp only [pushEntry, if_neg h]
      simp only [lookupGroup, List.find?] at ih ⊢
      cases hd : (decide (k0 = k') : Bool) with
      | true => rfl
      | false => exact ih

theorem lookupGroup_foldl {K T : Type} [DecidableEq K] (keyFn : T → K) :
    ∀ (l : List T) (gs : List (K × List T)) (k : K),
      lookupGroup (l.foldl (fun groups item => pushEntry (keyFn item) item groups) gs) k
        = lookupGroup gs k ++ l.filter (fun x => decide (keyFn x = k)) := by
  intro l
  induction l with
  | nil => intro gs k; simp
  | cons a l ih =>
    intro gs k
    rw [List.foldl_cons, ih]
    by_cases h : keyFn a = k
    · rw [show (pushEntry (keyFn a) a gs) = pushEntry k a gs by rw [h],
        lookupGroup_pushEntry_same]
      simp [List.filter_cons, h]
    · rw [lookupGroup_pushEntry_other _ _ _ _ (fun hk => h hk.symm)]
      simp [List.filter_cons, h]

theorem keys_pushEntry {K T : Type} [DecidableEq K] (k : K) (x : T)
    (gs : List (K × List T)) :
    (pushEntry k x gs).map Prod.fst
      = if k ∈ gs.map Prod.fst then gs.map Prod.fst else gs.map Prod.fst ++ [k] := by
  induction gs with
  | nil => simp [pushEntry]
  | cons e rest ih =>
    obtain ⟨k0, g⟩ := e
    by_cases h : k0 = k
    · subst h
      simp [pushEntry]
    · simp only [pushEntry, if_neg h, List.map_cons, ih]
      have hmem : (k ∈ k0 :: rest.map Prod.fst) ↔ k ∈ rest.map Prod.fst := by
        constructor
        · intro hc
          rcases List.mem_cons.mp hc with hc | hc
          · exact absurd hc.symm h
          · exact hc
        · exact fun hc => List.mem_cons_of_mem _ hc
      by_cases hk : k ∈ rest.map Prod.fst
      · rw [if_pos hk, if_pos (hmem.mpr hk)]
      · rw [if_neg hk, if_neg (fun hc => hk (hmem.mp hc))]
        rfl

theorem keys_nodup_pushEntry {K T : Type} [DecidableEq K] (k : K) (x : T)
    (gs : List (K × List T)) (h : (gs.map Prod.fst).Nodup) :
    ((pushEntry k x gs).map Prod.fst).Nodup := by
  rw [keys_pushEntry]
  by_cases hk : k ∈ gs.map Prod.fst
  · rwa [if_pos hk]
  · rw [if_neg hk, ← List.concat_eq_append]
    exact List.Nodup.concat hk h

theorem keys_nodup_foldl {K T : Type} [DecidableEq K] (keyFn : T → K) :
    ∀ (l : List T) (gs : List (K × List T)), (gs.map Prod.fst).Nodup →
      (((l.foldl (fun groups item => pushEntry (keyFn item) item groups) gs)).map
        Prod.fst).Nodup := by
  intro l
  induction l with
  | nil => intro gs h; simpa using h
  | cons a l ih =>
    intro gs h
    rw [List.foldl_cons]
    exact ih _ (keys_nodup_pushEntry _ _ _ h)

theorem snd_eq_lookupGroup_of_mem {K T : Type} [DecidableEq K]
    (gs : List (K × List T)) (h : (gs.map Prod.fst).Nodup) (e : K × List T)
    (he : e ∈ gs) : e.2 = lookupGroup gs e.1 := by
  induction gs with
  | nil => cases he
  | cons e0 rest ih =>
    obtain ⟨k0, g0⟩ := e0
    rw [List.map_cons, List.nodup_cons] at h
    rcases List.mem_cons.mp he with h1 | h1
    · subst h1
      simp [lookupGroup, List.find?]
    · have hne : e.1 ≠ k0 := by
        intro hk
        have hm : e.1 ∈ rest.map Prod.fst := List.mem_map_of_mem Prod.fst h1
        rw [hk] at hm
        exact h.1 hm
      have hd : (decide (k0 = e.1) : Bool) = false := by
        simp [Ne.symm hne]
      simp only [lookupGroup, List.find?, hd]
      exact ih h.2 h1

theorem join_pushEntry_perm {K T : Type} [DecidableEq K] (k : K) (x : T)
    (gs : List (K × List T)) :
    ((pushEntry k x gs).map Prod.snd).flatten.Perm
      ((gs.map Prod.snd).flatten ++ [x]) := by
  induction gs with
  | nil => simp [pushEntry]
  | cons e rest ih =>
    obtain ⟨k0, g⟩ := e
    by_cases h : k0 = k
    · rw [show pushEntry k x ((k0, g) :: rest) = (k0, g ++ [x]) :: rest by
        unfold pushEntry
        rw [if_pos h]]
      simp only [List.map_cons, List.flatten_cons, List.append_assoc]
      exact List.Perm.append_left g List.perm_append_comm
    · rw [show pushEntry k x ((k0, g) :: rest) = (k0, g) :: pushEntry k x rest by
        simp only [pushEntry, if_neg h]]
      simp only [List.map_cons, List.flatten_cons, List.append_assoc]
      exact List.Perm.append_left g ih

theorem join_foldl_perm {K T : Type} [DecidableEq K] (keyFn : T → K) :
    ∀ (l : List T) (gs : List (K × List T)),
      (((l.foldl (fun groups item => pushEntry (keyFn item) item groups) gs)).map
          Prod.snd).flatten.Perm ((gs.map Prod.snd).flatten ++ l) := by
  intro l
  induction l with
  | nil => intro gs; simp
  | cons a l ih =>
    intro gs
    rw [List.foldl_cons]
    refine (ih (pushEntry (keyFn a) a gs)).trans ?_
    have hstep := List.Perm.append_right l (join_pushEntry_perm (keyFn a) a gs)
    refine hstep.trans ?_
    rw [List.append_assoc, List.singleton_append]

/-- C10: `groupBy` partitions its input.  Every group equals the input
filtered to the items with that group's key (hence each group preserves the
input's relative order); the group keys are pairwise distinct; every input
item lies in the group keyed by its own key and only in groups with that key;
and the concatenation of all groups is a permutation of the input. -/
theorem groupBy_partitions {K T : Type} [DecidableEq K] (array : List T)
    (keyFn : T → K) :
    (∀ e ∈ groupBy array keyFn,
        e.2 = array.filter fun x => decide (keyFn x = e.1)) ∧
      ((groupBy array keyFn).map Prod.fst).Nodup ∧
      (∀ x ∈ array, x ∈ lookupGroup (groupBy array keyFn) (keyFn x) ∧
        ∀ e ∈ groupBy array keyFn, x ∈ e.2 → e.1 = keyFn x) ∧
      ((groupBy array keyFn).map Prod.snd).flatten.Perm array := by
  have hnodup : ((groupBy array keyFn).map Prod.fst).Nodup :=
    keys_nodup_foldl keyFn array [] (by simp)
  have hlookup : ∀ k, lookupGroup (groupBy array keyFn) k
      = array.filter fun x => decide (keyFn x = k) := by
    intro k
    have := lookupGroup_foldl keyFn array [] k
    simpa [lookupGroup, List.find?] using this
  have hfilter : ∀ e ∈ groupBy array keyFn,
      e.2 = array.filter fun x => decide (keyFn x = e.1) := by
    intro e he
    rw [snd_eq_lookupGroup_of_mem _ hnodup e he, hlookup]
  refine ⟨hfilter, hnodup, ?_, ?_⟩
  · intro x hx
    constructor
    · rw [hlookup]
      exact List.mem_filter.mpr ⟨hx, by simp⟩
    · intro e he hxe
      rw [hfilter e he] at hxe
      have hp := (List.mem_filter.mp hxe).2
      have hk : keyFn x = e.1 := by simpa using hp
      exact hk.symm
  · have := join_foldl_perm keyFn array []
    simpa using this

/-- Witness for `groupBy_partitions` on `[1, 2, 3, 4]` grouped by parity:
`3` lies in the group keyed `1`, and the groups concatenate to a permutation
of the input. -/
theorem groupBy_partitions_witness :
    3 ∈ lookupGroup (groupBy [1, 2, 3, 4] (fun n => n % 2)) 1 ∧
      ((groupBy [1, 2, 3, 4] (fun n => n % 2)).map Prod.snd).flatten.Perm
        [1, 2, 3, 4] := by
  constructor
  · exact ((groupBy_partitions [1, 2, 3, 4] (fun n => n % 2)).2.2.1 3
      (by decide)).1
  · exact (groupBy_partitions [1, 2, 3, 4] (fun n => n % 2)).2.2.2

end ArchetypeV2
